import Mathlib

/-!
Verification of the pyhaproxy tree-to-model builder (`pyhaproxy/parse.py`).

The builder walks a peg parse tree of an HAProxy-style configuration file and
assembles typed configuration objects.  The grammar module (`pegnode.py`) and
the model module (`config.py`) are not part of the sources studied here; their
shapes are reconstructed from the attribute accesses performed by `parse.py`
and, where `parse.py` is silent, from the specification.
-/

namespace pyhaproxy

/-- Service-address node attached to frontend/listen headers, server lines and
bind lines: `host.text` and `port.text` captured as raw strings
(pegnode.ServiceAddress, read via `.host.text` / `.port.text` in parse.py). -/
structure ServiceAddress where
  host : String
  port : String
deriving DecidableEq, Repr

/-- Generic-config line node: `keyword.text` and `value.text`
(pegnode.ConfigLine as read by parse.py lines 90-92). -/
structure ConfigLine where
  keyword : String
  value : String
deriving DecidableEq, Repr

/-- Option line node: `keyword.text` and `value.text`
(pegnode.OptionLine as read by parse.py lines 93-95). -/
structure OptionLine where
  keyword : String
  value : String
deriving DecidableEq, Repr

/-- Server line node: `server_name.text`, `service_address`, `value.text`
(pegnode.ServerLine as read by parse.py lines 226-233). -/
structure ServerLine where
  server_name : String
  service_address : ServiceAddress
  value : String
deriving DecidableEq, Repr

/-- Bind line node: `service_address` and `value.text`
(pegnode.BindLine as read by parse.py lines 238-243). -/
structure BindLine where
  service_address : ServiceAddress
  value : String
deriving DecidableEq, Repr

/-- Acl line node: `acl_name.text` and `value.text`
(pegnode.AclLine as read by parse.py lines 245-248). -/
structure AclLine where
  acl_name : String
  value : String
deriving DecidableEq, Repr

/-- use_backend / default_backend line node: `backend_name.text`,
`operator.text`, `backend_condition.text`, `backendtype.text`
(pegnode.BackendLine as read by parse.py lines 250-258). -/
structure BackendLine where
  backend_name : String
  operator : String
  backend_condition : String
  backendtype : String
deriving DecidableEq, Repr

/-- User line node: `user_name.text`, `password.text`, `passwd_type.text`,
`groups_fragment.text` (pegnode.UserLine as read by parse.py lines 260-267). -/
structure UserLine where
  user_name : String
  password : String
  passwd_type : String
  groups_fragment : String
deriving DecidableEq, Repr

/-- Group line node: `group_name.text` and `users_fragment.text`
(pegnode.GroupLine as read by parse.py lines 269-274). -/
structure GroupLine where
  group_name : String
  users_fragment : String
deriving DecidableEq, Repr

/-- One line node of a section's config block.  `blankLine` and `commentLine`
are the node kinds hitting the final `pass` branch of
`Parser.__build_config_block` (parse.py lines 114-116). -/
inductive LineNode where
  | configLine (n : ConfigLine)
  | optionLine (n : OptionLine)
  | serverLine (n : ServerLine)
  | bindLine (n : BindLine)
  | aclLine (n : AclLine)
  | backendLine (n : BackendLine)
  | userLine (n : UserLine)
  | groupLine (n : GroupLine)
  | blankLine
  | commentLine
deriving DecidableEq, Repr

/-- One section node of the parse tree, as dispatched on by
`Parser.build_configuration` (parse.py lines 34-51).  Frontend and listen
headers optionally carry a `ServiceAddress` (the `isinstance` test at parse.py
lines 159 and 196 distinguishes the two cases).  `otherSection` stands for a
tree node of any class not matched by the isinstance chain. -/
inductive SectionNode where
  | globalSection (config_block : List LineNode)
  | frontendSection (proxy_name : String) (service_address : Option ServiceAddress)
      (config_block : List LineNode)
  | defaultsSection (proxy_name : String) (config_block : List LineNode)
  | listenSection (proxy_name : String) (service_address : Option ServiceAddress)
      (config_block : List LineNode)
  | userlistSection (proxy_name : String) (config_block : List LineNode)
  | backendSection (proxy_name : String) (config_block : List LineNode)
  | otherSection
deriving DecidableEq, Repr

/-- Modelled from the spec: `config.Server` (file `pyhaproxy/config.py` is not
among the sources); fields per §3: name, host, port, attributes. -/
structure Server where
  name : String
  host : String
  port : String
  attributes : List String
deriving DecidableEq, Repr

/-- Modelled from the spec: `config.Bind` (config.py absent); §3. -/
structure Bind where
  host : String
  port : String
  attributes : List String
deriving DecidableEq, Repr

/-- Modelled from the spec: `config.Acl` (config.py absent); §3. -/
structure Acl where
  name : String
  value : String
deriving DecidableEq, Repr

/-- Modelled from the spec: `config.UseBackend` (config.py absent); §3. -/
structure UseBackend where
  backend_name : String
  operator : String
  backend_condition : String
  is_default : Bool
deriving DecidableEq, Repr

/-- Modelled from the spec: `config.User` (config.py absent); §3. -/
structure User where
  name : String
  passwd : String
  passwd_type : String
  group_names : List String
deriving DecidableEq, Repr

/-- Modelled from the spec: `config.Group` (config.py absent); §3. -/
structure Group where
  name : String
  user_names : List String
deriving DecidableEq, Repr

/-- Modelled from the spec: the config-block bundle, §3/§9 — a fixed record of
ordered sequences (the code builds it as a `defaultdict(list)` keyed by the
eight names below; an untouched key reads as the empty list, matching the
empty-list defaults here). -/
structure ConfigBlock where
  configs : List (String × String) := []
  options : List (String × String) := []
  servers : List Server := []
  binds : List Bind := []
  acls : List Acl := []
  usebackends : List UseBackend := []
  users : List User := []
  groups : List Group := []
deriving DecidableEq, Repr

/-- Modelled from the spec: `config.Global` (config.py absent); holds the
config block passed by `Parser.build_global`. -/
structure Global where
  config_block : ConfigBlock
deriving DecidableEq, Repr

/-- Modelled from the spec: `config.Defaults` (config.py absent). -/
structure Defaults where
  name : String
  config_block : ConfigBlock
deriving DecidableEq, Repr

/-- Modelled from the spec: `config.Userlist` (config.py absent). -/
structure Userlist where
  name : String
  config_block : ConfigBlock
deriving DecidableEq, Repr

/-- Modelled from the spec: `config.Listen` (config.py absent); §3. -/
structure Listen where
  name : String
  host : String
  port : String
  config_block : ConfigBlock
deriving DecidableEq, Repr

/-- Modelled from the spec: `config.Frontend` (config.py absent); §3. -/
structure Frontend where
  name : String
  host : String
  port : String
  config_block : ConfigBlock
deriving DecidableEq, Repr

/-- Modelled from the spec: `config.Backend` (config.py absent). -/
structure Backend where
  name : String
  config_block : ConfigBlock
deriving DecidableEq, Repr

/-- Modelled from the spec: `config.Configuration` (config.py absent); §3 —
one optional global slot plus ordered sequences for the other five section
kinds, all initially empty. -/
structure Configuration where
  globall : Option Global := none
  frontends : List Frontend := []
  defaults : List Defaults := []
  listens : List Listen := []
  userlists : List Userlist := []
  backends : List Backend := []
deriving DecidableEq, Repr

/-- Prepend a character to the first chunk of a split result (empty split
results do not arise, but the total fallback returns a singleton). -/
def consHead (c : Char) : List (List Char) → List (List Char)
  | [] => [[c]]
  | t :: ts => (c :: t) :: ts

/-- Python `str.split(' \t')` on the character list: split at each
non-overlapping occurrence of the two-character sequence space-tab, scanning
left to right; empty chunks are kept (parse.py lines 233 and 243). -/
def splitSpaceTab : List Char → List (List Char)
  | [] => [[]]
  | [c] => [[c]]
  | c :: d :: rest =>
    if c == ' ' && d == '\t' then [] :: splitSpaceTab rest
    else consHead c (splitSpaceTab (d :: rest))

/-- Python `str.split(sep)` for a single-character separator `sep`:
split at every occurrence, keeping empty chunks (parse.py lines 262, 271). -/
def splitOnChar (sep : Char) : List Char → List (List Char)
  | [] => [[]]
  | c :: rest =>
    if c == sep then [] :: splitOnChar sep rest
    else consHead c (splitOnChar sep rest)

/-- String-level wrapper of `splitSpaceTab`. -/
def splitSpaceTabStr (s : String) : List String :=
  (splitSpaceTab s.data).map String.mk

/-- String-level wrapper of `splitOnChar`. -/
def splitOnCharStr (sep : Char) (s : String) : List String :=
  (splitOnChar sep s.data).map String.mk

/-- `Parser.__build_server` (parse.py lines 226-236): name, host, port from
the node; attributes by splitting the value text on the literal
two-character sequence `' \t'`. -/
def build_server (n : ServerLine) : Server :=
  { name := n.server_name
    host := n.service_address.host
    port := n.service_address.port
    attributes := splitSpaceTabStr n.value }

/-- `Parser.__build_bind` (parse.py lines 238-243). -/
def build_bind (n : BindLine) : Bind :=
  { host := n.service_address.host
    port := n.service_address.port
    attributes := splitSpaceTabStr n.value }

/-- `Parser.__build_acl` (parse.py lines 245-248). -/
def build_acl (n : AclLine) : Acl :=
  { name := n.acl_name, value := n.value }

/-- `Parser.__build_usebackend` (parse.py lines 250-258). -/
def build_usebackend (n : BackendLine) : UseBackend :=
  { backend_name := n.backend_name
    operator := n.operator
    backend_condition := n.backend_condition
    is_default := n.backendtype == "default_backend" }

/-- `Parser.__build_user` (parse.py lines 260-267): the groups fragment is
comma-split when non-empty (Python truthiness of the string), else `[]`. -/
def build_user (n : UserLine) : User :=
  { name := n.user_name
    passwd := n.password
    passwd_type := n.passwd_type
    group_names := if n.groups_fragment = "" then [] else splitOnCharStr ',' n.groups_fragment }

/-- `Parser.__build_group` (parse.py lines 269-274). -/
def build_group (n : GroupLine) : Group :=
  { name := n.group_name
    user_names := if n.users_fragment = "" then [] else splitOnCharStr ',' n.users_fragment }

/-- One iteration of the loop body of `Parser.__build_config_block`
(parse.py lines 89-116): dispatch on the line-node kind and append the built
entity or pair to the matching sequence; blank/comment lines are a no-op. -/
def addLine (cb : ConfigBlock) : LineNode → ConfigBlock
  | .configLine n => { cb with configs := cb.configs ++ [(n.keyword, n.value)] }
  | .optionLine n => { cb with options := cb.options ++ [(n.keyword, n.value)] }
  | .serverLine n => { cb with servers := cb.servers ++ [build_server n] }
  | .bindLine n => { cb with binds := cb.binds ++ [build_bind n] }
  | .aclLine n => { cb with acls := cb.acls ++ [build_acl n] }
  | .backendLine n => { cb with usebackends := cb.usebackends ++ [build_usebackend n] }
  | .userLine n => { cb with users := cb.users ++ [build_user n] }
  | .groupLine n => { cb with groups := cb.groups ++ [build_group n] }
  | .blankLine => cb
  | .commentLine => cb

/-- The loop of `Parser.__build_config_block`, with explicit accumulator. -/
def build_config_block_aux (cb : ConfigBlock) : List LineNode → ConfigBlock
  | [] => cb
  | l :: rest => build_config_block_aux (addLine cb l) rest

/-- `Parser.__build_config_block` (parse.py lines 69-117). -/
def build_config_block (lines : List LineNode) : ConfigBlock :=
  build_config_block_aux {} lines

/-- `Parser.build_global` (parse.py lines 55-67). -/
def build_global (config_block : List LineNode) : Global :=
  { config_block := build_config_block config_block }

/-- `Parser.build_defaults` (parse.py lines 119-131). -/
def build_defaults (proxy_name : String) (config_block : List LineNode) : Defaults :=
  { name := proxy_name, config_block := build_config_block config_block }

/-- `Parser.build_userlist` (parse.py lines 133-140). -/
def build_userlist (proxy_name : String) (config_block : List LineNode) : Userlist :=
  { name := proxy_name, config_block := build_config_block config_block }

/-- `Parser.build_backend` (parse.py lines 212-224). -/
def build_backend (proxy_name : String) (config_block : List LineNode) : Backend :=
  { name := proxy_name, config_block := build_config_block config_block }

/-- `Parser.build_listen` (parse.py lines 142-173): host/port from the header
address when present, otherwise from the first built Bind of the config
block (the `for ... break / else raise` at lines 165-170). -/
def build_listen (proxy_name : String) (service_address : Option ServiceAddress)
    (config_block : List LineNode) : Except String Listen :=
  let cb := build_config_block config_block
  match service_address with
  | some sa => .ok { name := proxy_name, host := sa.host, port := sa.port, config_block := cb }
  | none =>
    match cb.binds with
    | b :: _ => .ok { name := proxy_name, host := b.host, port := b.port, config_block := cb }
    | [] => .error "Not specify host and port in `listen` definition"

/-- `Parser.build_frontend` (parse.py lines 175-210): same address resolution
as `build_listen` (lines 194-207). -/
def build_frontend (proxy_name : String) (service_address : Option ServiceAddress)
    (config_block : List LineNode) : Except String Frontend :=
  let cb := build_config_block config_block
  match service_address with
  | some sa => .ok { name := proxy_name, host := sa.host, port := sa.port, config_block := cb }
  | none =>
    match cb.binds with
    | b :: _ => .ok { name := proxy_name, host := b.host, port := b.port, config_block := cb }
    | [] => .error "Not specify host and port in `frontend` definition"

/-- One iteration of the dispatch loop of `Parser.build_configuration`
(parse.py lines 34-51): global overwrites the single slot, the other five
kinds append, and a node of any other class falls through the isinstance
chain with no effect. -/
def buildSection (c : Configuration) : SectionNode → Except String Configuration
  | .globalSection cb => .ok { c with globall := some (build_global cb) }
  | .frontendSection n sa cb =>
    match build_frontend n sa cb with
    | .error e => .error e
    | .ok f => .ok { c with frontends := c.frontends ++ [f] }
  | .defaultsSection n cb => .ok { c with defaults := c.defaults ++ [build_defaults n cb] }
  | .listenSection n sa cb =>
    match build_listen n sa cb with
    | .error e => .error e
    | .ok l => .ok { c with listens := c.listens ++ [l] }
  | .userlistSection n cb => .ok { c with userlists := c.userlists ++ [build_userlist n cb] }
  | .backendSection n cb => .ok { c with backends := c.backends ++ [build_backend n cb] }
  | .otherSection => .ok c

/-- The loop of `Parser.build_configuration`, with explicit accumulator; an
exception from a section builder aborts the walk. -/
def build_configuration_aux (c : Configuration) : List SectionNode → Except String Configuration
  | [] => .ok c
  | node :: rest =>
    match buildSection c node with
    | .error e => .error e
    | .ok c' => build_configuration_aux c' rest

/-- Tree-level `Parser.build_configuration` (parse.py lines 23-53), starting
from the fresh Configuration allocated at line 33. -/
def build_configuration_tree (tree : List SectionNode) : Except String Configuration :=
  build_configuration_aux {} tree

/-- Split a character list at every space or tab (helper for the
spec-modelled recognizer's tokenizer). -/
def splitWS : List Char → List (List Char)
  | [] => [[]]
  | c :: rest =>
    if c == ' ' || c == '\t' then [] :: splitWS rest
    else consHead c (splitWS rest)

/-- Whitespace tokens of one source line, empties dropped. -/
def tokenize (line : String) : List String :=
  ((splitWS line.data).map String.mk).filter (fun t => t ≠ "")

/-- Rejoin value tokens with single spaces. -/
def joinTokens (toks : List String) : String :=
  String.intercalate " " toks

/-- Modelled from the spec: the `<host>:<port>` service-address fragment of
§4.1 (grammar file pegnode.py absent from the sources) — split at the last
colon, both parts raw text; a token without a colon becomes a host with an
empty port. -/
def parseServiceAddress (tok : String) : ServiceAddress :=
  match (splitOnChar ':' tok.data).reverse with
  | p :: h1 :: hs => ⟨String.mk (List.intercalate [':'] (h1 :: hs).reverse), String.mk p⟩
  | _ => ⟨tok, ""⟩

/-- Modelled from the spec: §4.1 line classification (pegnode.py absent) —
specific line kinds are tried by leading-keyword match before the
generic-config fallback, which matches any line with at least one token;
blank and comment lines carry no payload. -/
def classifyLine (line : String) : LineNode :=
  match tokenize line with
  | [] => .blankLine
  | kw :: rest =>
    if kw.data.head? = some '#' then .commentLine
    else if kw = "bind" then
      match rest with
      | addr :: attrs => .bindLine ⟨parseServiceAddress addr, joinTokens attrs⟩
      | [] => .configLine ⟨kw, ""⟩
    else if kw = "server" then
      match rest with
      | nm :: addr :: attrs => .serverLine ⟨nm, parseServiceAddress addr, joinTokens attrs⟩
      | _ => .configLine ⟨kw, joinTokens rest⟩
    else if kw = "acl" then
      match rest with
      | nm :: val => .aclLine ⟨nm, joinTokens val⟩
      | [] => .configLine ⟨kw, ""⟩
    else if kw = "use_backend" || kw = "default_backend" then
      match rest with
      | nm :: op :: cond => .backendLine ⟨nm, op, joinTokens cond, kw⟩
      | [nm] => .backendLine ⟨nm, "", "", kw⟩
      | [] => .configLine ⟨kw, ""⟩
    else if kw = "user" then
      match rest with
      | nm :: pt :: pw :: more =>
        let frag := match more with
          | [g, csv] => if g = "groups" then csv else ""
          | _ => ""
        .userLine ⟨nm, pw, pt, frag⟩
      | _ => .configLine ⟨kw, joinTokens rest⟩
    else if kw = "group" then
      match rest with
      | [nm] => .groupLine ⟨nm, ""⟩
      | [nm, u, csv] => .groupLine ⟨nm, if u = "users" then csv else ""⟩
      | _ => .configLine ⟨kw, joinTokens rest⟩
    else if kw = "option" then
      match rest with
      | k :: v => .optionLine ⟨k, joinTokens v⟩
      | [] => .configLine ⟨kw, ""⟩
    else .configLine ⟨kw, joinTokens rest⟩

/-- Section-header data recognized by the spec-modelled grammar (§4.1). -/
inductive Header where
  | hglobal
  | hfrontend (proxy_name : String) (service_address : Option ServiceAddress)
  | hdefaults (proxy_name : String)
  | hlisten (proxy_name : String) (service_address : Option ServiceAddress)
  | huserlist (proxy_name : String)
  | hbackend (proxy_name : String)
deriving DecidableEq, Repr

/-- Modelled from the spec: §4.1 section-header recognition (pegnode.py
absent): `global`, `defaults <name>`, `frontend <name> [address]`,
`backend <name>`, `listen <name> [address]`, `userlist <name>`. -/
def headerOf (line : String) : Option Header :=
  match tokenize line with
  | ["global"] => some .hglobal
  | "frontend" :: nm :: rest => some (.hfrontend nm (rest.head?.map parseServiceAddress))
  | "defaults" :: nm :: _ => some (.hdefaults nm)
  | "listen" :: nm :: rest => some (.hlisten nm (rest.head?.map parseServiceAddress))
  | "userlist" :: nm :: _ => some (.huserlist nm)
  | "backend" :: nm :: _ => some (.hbackend nm)
  | _ => none

/-- Assemble a section node from its recognized header and body lines. -/
def mkSection : Header → List LineNode → SectionNode
  | .hglobal, ls => .globalSection ls
  | .hfrontend n sa, ls => .frontendSection n sa ls
  | .hdefaults n, ls => .defaultsSection n ls
  | .hlisten n sa, ls => .listenSection n sa ls
  | .huserlist n, ls => .userlistSection n ls
  | .hbackend n, ls => .backendSection n ls

/-- Emit the section currently being accumulated, if any. -/
def closeSection : Option (Header × List LineNode) → List SectionNode
  | none => []
  | some (h, acc) => [mkSection h acc]

/-- Modelled from the spec: the line walk of the recognizer (§4.1,
pegnode.py absent) — a header line opens a new section, body lines are
classified into the current section, and a non-blank non-comment line
outside any section is a syntax error (all-or-nothing recognition). -/
def pegparse_go (cur : Option (Header × List LineNode)) :
    List String → Except String (List SectionNode)
  | [] => .ok (closeSection cur)
  | line :: rest =>
    match headerOf line with
    | some h =>
      match pegparse_go (some (h, [])) rest with
      | .error e => .error e
      | .ok tail => .ok (closeSection cur ++ tail)
    | none =>
      match cur with
      | some (h, acc) => pegparse_go (some (h, acc ++ [classifyLine line])) rest
      | none =>
        match classifyLine line with
        | .blankLine => pegparse_go none rest
        | .commentLine => pegparse_go none rest
        | _ => .error ("unexpected line outside any section: " ++ line)

/-- Modelled from the spec: `pegnode.parse` (pegnode.py absent), the
grammar-driven recognizer of §4.1 — a deterministic function from the text
buffer to an ordered parse tree of sections, or a syntax error. -/
def pegparse (s : String) : Except String (List SectionNode) :=
  pegparse_go none ((splitOnChar '\n' s.data).map String.mk)

/-- The parser object: `filestring` is stored by `Parser.__init__`
(parse.py line 19); `pegtree` is assigned by `Parser.build_configuration`
(parse.py line 32) and is the only state carried across invocations. -/
structure ParserObj where
  filestring : String
  pegtree : Option (List SectionNode) := none
deriving DecidableEq, Repr

/-- `Parser.__init__` (parse.py lines 18-21): the file contents (read by the
external collaborator `__read_string_from_file`, which yields `''` for a
missing file) are rejected with an exception when empty — Python
`not self.filestring` holds exactly for the empty string. -/
def parser_init (filepath : String) (filestring : String) : Except String ParserObj :=
  if filestring = "" then .error ("error reading from file " ++ filepath)
  else .ok { filestring := filestring }

/-- `Parser.build_configuration` (parse.py lines 23-53) at the object level:
re-parse `filestring`, store the tree in the `pegtree` slot, and assemble the
Configuration from the fresh tree. -/
def build_configuration (p : ParserObj) : ParserObj × Except String Configuration :=
  match pegparse p.filestring with
  | .error e => (p, .error e)
  | .ok tree => ({ p with pegtree := some tree }, build_configuration_tree tree)

/-- Spec-side projection (order law, §8): the (keyword, value) pairs of the
generic-config lines of a section body, in source order. -/
def spec_config_pairs (lines : List LineNode) : List (String × String) :=
  lines.filterMap fun l =>
    match l with
    | .configLine n => some (n.keyword, n.value)
    | _ => none

/-- Spec-side projection (order law, §8): the (keyword, value) pairs of the
option lines of a section body, in source order. -/
def spec_option_pairs (lines : List LineNode) : List (String × String) :=
  lines.filterMap fun l =>
    match l with
    | .optionLine n => some (n.keyword, n.value)
    | _ => none

/-- Config blocks of the global sections of a tree, in source order. -/
def globalBlocks (tree : List SectionNode) : List (List LineNode) :=
  tree.filterMap fun n =>
    match n with
    | .globalSection cb => some cb
    | _ => none

/-- Config block of the last global section of a tree, if any. -/
def lastGlobalCB : List SectionNode → Option (List LineNode)
  | [] => none
  | .globalSection cb :: rest => some ((lastGlobalCB rest).getD cb)
  | _ :: rest => lastGlobalCB rest

/-- Whether `pat` is an initial segment of `l` (character lists). -/
def startsWithCL : List Char → List Char → Bool
  | [], _ => true
  | _ :: _, [] => false
  | p :: ps, c :: cs => p == c && startsWithCL ps cs

/-- Whether `pat` occurs contiguously anywhere inside `l`. -/
def mentionsCL (pat : List Char) : List Char → Bool
  | [] => startsWithCL pat []
  | c :: cs => startsWithCL pat (c :: cs) || mentionsCL pat cs

/-- Whether the message text `msg` mentions the name `name` (substring
occurrence) — the formal reading of "an error naming the section". -/
def error_mentions (msg name : String) : Bool :=
  mentionsCL name.data msg.data

/-- Spec-side rejoin: interleave the literal two-character space-tab
separator back between chunks.  Together with the chunks carrying no
occurrence of the separator, `joinSpaceTab` of the chunks reconstructing the
original text characterizes splitting on that separator. -/
def joinSpaceTab : List (List Char) → List Char
  | [] => []
  | [t] => t
  | t :: ts => t ++ ' ' :: '\t' :: joinSpaceTab ts

theorem splitSpaceTab_no_tab (l : List Char) (h : '\t' ∉ l) : splitSpaceTab l = [l] := by
  induction l with
  | nil => rfl
  | cons c rest ih =>
    cases rest with
    | nil => rfl
    | cons d rest' =>
      simp only [List.mem_cons, not_or] at h
      obtain ⟨h1, h2, h3⟩ := h
      have hdb : (d == '\t') = false := beq_eq_false_iff_ne.mpr fun hh => h2 hh.symm
      have hrec := ih (by simp only [List.mem_cons, not_or]; exact ⟨h2, h3⟩)
      simp [splitSpaceTab, hdb, hrec, consHead]

theorem splitSpaceTabStr_no_tab (s : String) (h : '\t' ∉ s.data) :
    splitSpaceTabStr s = [s] := by
  simp [splitSpaceTabStr, splitSpaceTab_no_tab s.data h]

theorem consHead_ne_nil (c : Char) (ts : List (List Char)) : consHead c ts ≠ [] := by
  cases ts <;> simp [consHead]

theorem splitSpaceTab_ne_nil : ∀ l : List Char, splitSpaceTab l ≠ []
  | [] => by simp [splitSpaceTab]
  | [c] => by simp [splitSpaceTab]
  | c :: d :: rest => by
    rw [splitSpaceTab]
    split
    · simp
    · exact consHead_ne_nil c _

theorem splitSpaceTab_cons (l : List Char) :
    ∃ t ts, splitSpaceTab l = t :: ts := by
  cases hs : splitSpaceTab l with
  | nil => exact absurd hs (splitSpaceTab_ne_nil l)
  | cons t ts => exact ⟨t, ts, rfl⟩

theorem joinSpaceTab_consHead (c : Char) (t : List Char) (ts : List (List Char)) :
    joinSpaceTab (consHead c (t :: ts)) = c :: joinSpaceTab (t :: ts) := by
  cases ts <;> simp [consHead, joinSpaceTab]

theorem joinSpaceTab_splitSpaceTab : ∀ l : List Char, joinSpaceTab (splitSpaceTab l) = l
  | [] => rfl
  | [_] => rfl
  | c :: d :: rest => by
    have ih1 := joinSpaceTab_splitSpaceTab rest
    have ih2 := joinSpaceTab_splitSpaceTab (d :: rest)
    rw [splitSpaceTab]
    by_cases h : (c == ' ' && d == '\t') = true
    · rw [if_pos h]
      obtain ⟨t, ts, hsp⟩ := splitSpaceTab_cons rest
      rw [hsp] at ih1 ⊢
      show ([] : List Char) ++ ' ' :: '\t' :: joinSpaceTab (t :: ts) = c :: d :: rest
      have hcd : (c == ' ') = true ∧ (d == '\t') = true := by simpa using h
      have hc' : c = ' ' := by simpa using hcd.1
      have hd' : d = '\t' := by simpa using hcd.2
      simp [ih1, hc', hd']
    · rw [if_neg h]
      obtain ⟨t, ts, hsp⟩ := splitSpaceTab_cons (d :: rest)
      rw [hsp] at ih2 ⊢
      rw [joinSpaceTab_consHead, ih2]

theorem splitSpaceTab_head_shape (d : Char) (rest : List Char) :
    (∃ ts, splitSpaceTab (d :: rest) = [] :: ts) ∨
    (∃ t ts, splitSpaceTab (d :: rest) = (d :: t) :: ts) := by
  cases rest with
  | nil => exact Or.inr ⟨[], [], rfl⟩
  | cons e rest' =>
    rw [splitSpaceTab]
    by_cases h : (d == ' ' && e == '\t') = true
    · exact Or.inl ⟨splitSpaceTab rest', by rw [if_pos h]⟩
    · obtain ⟨t, ts, hsp⟩ := splitSpaceTab_cons (e :: rest')
      exact Or.inr ⟨t, ts, by rw [if_neg h, hsp]; rfl⟩

theorem splitSpaceTab_chunks_no_pair :
    ∀ l : List Char, ∀ t ∈ splitSpaceTab l, mentionsCL [' ', '\t'] t = false
  | [] => by
    intro t ht
    simp [splitSpaceTab] at ht
    subst ht
    rfl
  | [c] => by
    intro t ht
    simp [splitSpaceTab] at ht
    subst ht
    simp [mentionsCL, startsWithCL]
  | c :: d :: rest => by
    have ih1 := splitSpaceTab_chunks_no_pair rest
    have ih2 := splitSpaceTab_chunks_no_pair (d :: rest)
    intro t ht
    rw [splitSpaceTab] at ht
    by_cases h : (c == ' ' && d == '\t') = true
    · rw [if_pos h] at ht
      rcases List.mem_cons.mp ht with h1 | h1
      · subst h1; rfl
      · exact ih1 t h1
    · rw [if_neg h] at ht
      obtain ⟨t₀, ts, hsp⟩ := splitSpaceTab_cons (d :: rest)
      rw [hsp] at ht
      simp only [consHead] at ht
      rcases List.mem_cons.mp ht with h1 | h1
      · subst h1
        have ht₀ : mentionsCL [' ', '\t'] t₀ = false :=
          ih2 t₀ (by rw [hsp]; exact List.mem_cons_self _ _)
        have hpair : ¬(c = ' ' ∧ d = '\t') := by
          intro ⟨hc, hd⟩
          exact h (by simp [hc, hd])
        rcases splitSpaceTab_head_shape d rest with ⟨ts', hh⟩ | ⟨t', ts', hh⟩
        · rw [hh] at hsp
          injection hsp with e1 _
          subst e1
          simp [mentionsCL, startsWithCL, ht₀]
        · rw [hh] at hsp
          injection hsp with e1 _
          subst e1
          have hstep : mentionsCL [' ', '\t'] (c :: d :: t') =
              (startsWithCL [' ', '\t'] (c :: d :: t') || mentionsCL [' ', '\t'] (d :: t')) := rfl
          rw [hstep, ht₀, Bool.or_false]
          have hsw : startsWithCL [' ', '\t'] (c :: d :: t') =
              ((' ' == c) && (('\t' == d) && startsWithCL [] t')) := rfl
          rw [hsw]
          by_cases hc : c = ' '
          · have hd : d ≠ '\t' := fun hd => hpair ⟨hc, hd⟩
            have h2 : ('\t' == d) = false := beq_eq_false_iff_ne.mpr fun hh' => hd hh'.symm
            simp [h2]
          · have h1 : (' ' == c) = false := beq_eq_false_iff_ne.mpr fun hh' => hc hh'.symm
            simp [h1]
      · exact ih2 t (by rw [hsp]; exact List.mem_cons_of_mem _ h1)

theorem data_mk_eq (l : List Char) : (String.mk l).data = l := rfl

theorem splitSpaceTabStr_map_data (s : String) :
    ((splitSpaceTabStr s).map String.data) = splitSpaceTab s.data := by
  have hcomp : String.data ∘ String.mk = id := rfl
  rw [splitSpaceTabStr, List.map_map, hcomp, List.map_id]

theorem build_config_block_aux_configs (lines : List LineNode) :
    ∀ cb : ConfigBlock,
      (build_config_block_aux cb lines).configs = cb.configs ++ spec_config_pairs lines := by
  induction lines with
  | nil => intro cb; simp [build_config_block_aux, spec_config_pairs]
  | cons l rest ih =>
    intro cb
    cases l <;> simp [build_config_block_aux, addLine, spec_config_pairs, List.filterMap_cons, ih]

theorem build_config_block_aux_options (lines : List LineNode) :
    ∀ cb : ConfigBlock,
      (build_config_block_aux cb lines).options = cb.options ++ spec_option_pairs lines := by
  induction lines with
  | nil => intro cb; simp [build_config_block_aux, spec_option_pairs]
  | cons l rest ih =>
    intro cb
    cases l <;> simp [build_config_block_aux, addLine, spec_option_pairs, List.filterMap_cons, ih]

theorem build_configuration_aux_globall (tree : List SectionNode) :
    ∀ c c' : Configuration, build_configuration_aux c tree = .ok c' →
      c'.globall = ((lastGlobalCB tree).map fun cb => some (build_global cb)).getD c.globall := by
  induction tree with
  | nil =>
    intro c c' h
    simp [build_configuration_aux] at h
    simp [lastGlobalCB, ← h]
  | cons node rest ih =>
    intro c c' h
    cases node with
    | globalSection cb =>
      simp [build_configuration_aux, buildSection] at h
      have := ih _ _ h
      cases hl : lastGlobalCB rest <;> simp [hl, lastGlobalCB] at this ⊢ <;> simp [this]
    | frontendSection n sa cb =>
      rw [build_configuration_aux] at h
      cases hf : build_frontend n sa cb with
      | error e => simp [buildSection, hf] at h
      | ok f =>
        simp [buildSection, hf] at h
        have := ih _ _ h
        simpa [lastGlobalCB] using this
    | defaultsSection n cb =>
      simp [build_configuration_aux, buildSection] at h
      have := ih _ _ h
      simpa [lastGlobalCB] using this
    | listenSection n sa cb =>
      rw [build_configuration_aux] at h
      cases hf : build_listen n sa cb with
      | error e => simp [buildSection, hf] at h
      | ok l =>
        simp [buildSection, hf] at h
        have := ih _ _ h
        simpa [lastGlobalCB] using this
    | userlistSection n cb =>
      simp [build_configuration_aux, buildSection] at h
      have := ih _ _ h
      simpa [lastGlobalCB] using this
    | backendSection n cb =>
      simp [build_configuration_aux, buildSection] at h
      have := ih _ _ h
      simpa [lastGlobalCB] using this
    | otherSection =>
      simp [build_configuration_aux, buildSection] at h
      have := ih _ _ h
      simpa [lastGlobalCB] using this

theorem build_configuration_aux_skip (pre : List SectionNode) :
    ∀ (c : Configuration) (post : List SectionNode),
      build_configuration_aux c (pre ++ SectionNode.otherSection :: post) =
        build_configuration_aux c (pre ++ post) := by
  induction pre with
  | nil => intro c post; simp [build_configuration_aux, buildSection]
  | cons node pre' ih =>
    intro c post
    simp only [List.cons_append, build_configuration_aux]
    cases buildSection c node <;> simp [ih]

/-- C1: for a frontend or listen section whose header carries no address
fragment and whose config block has at least one Bind, the built object's
host and port are those of the first Bind of the block in source order,
whatever binds follow. -/
theorem first_bind_resolves_address (name : String) (lines : List LineNode)
    (b : Bind) (bs : List Bind)
    (h : (build_config_block lines).binds = b :: bs) :
    build_frontend name none lines =
      .ok { name := name, host := b.host, port := b.port,
            config_block := build_config_block lines } ∧
    build_listen name none lines =
      .ok { name := name, host := b.host, port := b.port,
            config_block := build_config_block lines } := by
  constructor <;> simp [build_frontend, build_listen, h]

theorem first_bind_resolves_address_witness :
    (build_config_block [.bindLine ⟨⟨"127.0.0.1", "8080"⟩, ""⟩,
        .bindLine ⟨⟨"127.0.0.1", "9090"⟩, ""⟩]).binds =
      Bind.mk "127.0.0.1" "8080" [""] :: [Bind.mk "127.0.0.1" "9090" [""]] ∧
    (build_frontend "web" none [.bindLine ⟨⟨"127.0.0.1", "8080"⟩, ""⟩,
        .bindLine ⟨⟨"127.0.0.1", "9090"⟩, ""⟩] =
      .ok { name := "web", host := "127.0.0.1", port := "8080",
            config_block := build_config_block [.bindLine ⟨⟨"127.0.0.1", "8080"⟩, ""⟩,
              .bindLine ⟨⟨"127.0.0.1", "9090"⟩, ""⟩] } ∧
    build_listen "web" none [.bindLine ⟨⟨"127.0.0.1", "8080"⟩, ""⟩,
        .bindLine ⟨⟨"127.0.0.1", "9090"⟩, ""⟩] =
      .ok { name := "web", host := "127.0.0.1", port := "8080",
            config_block := build_config_block [.bindLine ⟨⟨"127.0.0.1", "8080"⟩, ""⟩,
              .bindLine ⟨⟨"127.0.0.1", "9090"⟩, ""⟩] }) :=
  ⟨rfl, first_bind_resolves_address "web"
    [.bindLine ⟨⟨"127.0.0.1", "8080"⟩, ""⟩, .bindLine ⟨⟨"127.0.0.1", "9090"⟩, ""⟩]
    (Bind.mk "127.0.0.1" "8080" [""]) [Bind.mk "127.0.0.1" "9090" [""]] rfl⟩

/-- C2: for a frontend or listen section whose header carries an explicit
service-address fragment, host and port are taken verbatim from the fragment
as raw strings (any strings are accepted — no validation) and the body's
bind lines are not consulted for the address. -/
theorem header_address_verbatim (name hs ps : String) (lines : List LineNode) :
    build_frontend name (some ⟨hs, ps⟩) lines =
      .ok { name := name, host := hs, port := ps,
            config_block := build_config_block lines } ∧
    build_listen name (some ⟨hs, ps⟩) lines =
      .ok { name := name, host := hs, port := ps,
            config_block := build_config_block lines } :=
  ⟨rfl, rfl⟩

/-- C3, counterexample: for the frontend named "web" with no header address
and no bind lines, the error raised does not mention the section's name —
its text is a fixed message identifying only the section kind. -/
theorem missing_address_error_names_section_cex :
    build_frontend "web" none [] =
      .error "Not specify host and port in `frontend` definition" ∧
    error_mentions "Not specify host and port in `frontend` definition" "web" = false := by
  constructor
  · rfl
  · decide

/-- C3, amended: for a frontend or listen section with neither a header
address nor any bind in its config block, building fails with an exception
whose fixed message names the section kind (not the section's name), and no
Frontend/Listen value is produced. -/
theorem missing_address_error_raised (name : String) (lines : List LineNode)
    (h : (build_config_block lines).binds = []) :
    build_frontend name none lines =
      .error "Not specify host and port in `frontend` definition" ∧
    build_listen name none lines =
      .error "Not specify host and port in `listen` definition" := by
  constructor <;> simp [build_frontend, build_listen, h]

theorem missing_address_error_raised_witness :
    (build_config_block [LineNode.configLine ⟨"mode", "http"⟩]).binds = [] ∧
    (build_frontend "web" none [LineNode.configLine ⟨"mode", "http"⟩] =
      .error "Not specify host and port in `frontend` definition" ∧
    build_listen "web" none [LineNode.configLine ⟨"mode", "http"⟩] =
      .error "Not specify host and port in `listen` definition") :=
  ⟨rfl, missing_address_error_raised "web" _ rfl⟩

/-- C4: for every config block, the `configs` and `options` sequences equal,
in count and order, the (keyword, value) pairs of the generic-config and
option lines of the section body — duplicates preserved, nothing reordered;
in particular `maxconn 1024` then `maxconn 2048` yields both pairs in that
order. -/
theorem configs_options_order_law :
    (∀ lines : List LineNode,
      (build_config_block lines).configs = spec_config_pairs lines ∧
      (build_config_block lines).options = spec_option_pairs lines) ∧
    (build_global [.configLine ⟨"maxconn", "1024"⟩, .configLine ⟨"maxconn", "2048"⟩]).config_block.configs
      = [("maxconn", "1024"), ("maxconn", "2048")] := by
  refine ⟨fun lines => ⟨?_, ?_⟩, rfl⟩
  · simpa using build_config_block_aux_configs lines {}
  · simpa using build_config_block_aux_options lines {}

/-- C5: when the tree's global sections number more than one, the assembled
Configuration's global slot is the builder output of the last global section
in source order — each successive global overwrites the slot. -/
theorem last_global_wins (tree : List SectionNode) (c : Configuration)
    (_hmulti : 1 < (globalBlocks tree).length)
    (h : build_configuration_tree tree = .ok c) :
    c.globall = (lastGlobalCB tree).map build_global := by
  have hg := build_configuration_aux_globall tree {} c h
  cases hl : lastGlobalCB tree <;> simp [hl] at hg ⊢ <;> simp [hg]

theorem last_global_wins_witness :
    1 < (globalBlocks [SectionNode.globalSection [LineNode.configLine ⟨"maxconn", "1024"⟩],
        SectionNode.globalSection [LineNode.configLine ⟨"maxconn", "2048"⟩]]).length ∧
    build_configuration_tree [SectionNode.globalSection [LineNode.configLine ⟨"maxconn", "1024"⟩],
        SectionNode.globalSection [LineNode.configLine ⟨"maxconn", "2048"⟩]] =
      .ok { globall := some (build_global [LineNode.configLine ⟨"maxconn", "2048"⟩]) } ∧
    ({ globall := some (build_global [LineNode.configLine ⟨"maxconn", "2048"⟩])} : Configuration).globall =
      (lastGlobalCB [SectionNode.globalSection [LineNode.configLine ⟨"maxconn", "1024"⟩],
        SectionNode.globalSection [LineNode.configLine ⟨"maxconn", "2048"⟩]]).map build_global :=
  ⟨by decide, rfl, last_global_wins _ _ (by decide) rfl⟩

/-- C6: for every server line and every bind line, the built attributes are
the value text split on the literal two-character space-tab sequence and on
nothing else: the chunks, rejoined with that exact separator, reconstruct
the value text, and no chunk contains an occurrence of the sequence — so the
code does split at each occurrence of `' \t'` (concrete splitting instance
included) while a lone tab or single spaces never split, and a value whose
only whitespace is single spaces stays a one-element attribute list holding
the whole value text. -/
theorem attributes_split_on_space_tab :
    (∀ sn : ServerLine,
      (build_server sn).attributes = splitSpaceTabStr sn.value ∧
      joinSpaceTab (((build_server sn).attributes).map String.data) = sn.value.data ∧
      (∀ t ∈ (build_server sn).attributes, mentionsCL [' ', '\t'] t.data = false) ∧
      ('\t' ∉ sn.value.data → (build_server sn).attributes = [sn.value])) ∧
    (∀ bn : BindLine,
      (build_bind bn).attributes = splitSpaceTabStr bn.value ∧
      joinSpaceTab (((build_bind bn).attributes).map String.data) = bn.value.data ∧
      (∀ t ∈ (build_bind bn).attributes, mentionsCL [' ', '\t'] t.data = false) ∧
      ('\t' ∉ bn.value.data → (build_bind bn).attributes = [bn.value])) ∧
    (build_server ⟨"app1", ⟨"10.0.0.1", "80"⟩, "maxconn 1024 \tweight 3"⟩).attributes =
      ["maxconn 1024", "weight 3"] ∧
    (build_bind ⟨⟨"0.0.0.0", "443"⟩, "crt\tcert.pem no-sslv3"⟩).attributes =
      ["crt\tcert.pem no-sslv3"] := by
  refine ⟨fun sn => ⟨rfl, ?_, ?_, ?_⟩, fun bn => ⟨rfl, ?_, ?_, ?_⟩, by decide, by decide⟩
  · show joinSpaceTab ((splitSpaceTabStr sn.value).map String.data) = sn.value.data
    rw [splitSpaceTabStr_map_data, joinSpaceTab_splitSpaceTab]
  · intro t ht
    have ht' : t ∈ splitSpaceTabStr sn.value := ht
    simp only [splitSpaceTabStr, List.mem_map] at ht'
    obtain ⟨l, hl, rfl⟩ := ht'
    simpa [data_mk_eq] using splitSpaceTab_chunks_no_pair sn.value.data l hl
  · intro hs
    show splitSpaceTabStr sn.value = [sn.value]
    exact splitSpaceTabStr_no_tab sn.value hs
  · show joinSpaceTab ((splitSpaceTabStr bn.value).map String.data) = bn.value.data
    rw [splitSpaceTabStr_map_data, joinSpaceTab_splitSpaceTab]
  · intro t ht
    have ht' : t ∈ splitSpaceTabStr bn.value := ht
    simp only [splitSpaceTabStr, List.mem_map] at ht'
    obtain ⟨l, hl, rfl⟩ := ht'
    simpa [data_mk_eq] using splitSpaceTab_chunks_no_pair bn.value.data l hl
  · intro hb
    show splitSpaceTabStr bn.value = [bn.value]
    exact splitSpaceTabStr_no_tab bn.value hb

theorem attributes_split_on_space_tab_witness :
    ('\t' ∉ ("maxconn 1024 weight 3" : String).data ∧
      '\t' ∉ ("ssl crt cert.pem" : String).data) ∧
    ((build_server ⟨"srv1", ⟨"10.0.0.1", "80"⟩, "maxconn 1024 weight 3"⟩).attributes =
        ["maxconn 1024 weight 3"] ∧
      (build_bind ⟨⟨"0.0.0.0", "443"⟩, "ssl crt cert.pem"⟩).attributes =
        ["ssl crt cert.pem"]) :=
  ⟨⟨by decide, by decide⟩,
    ⟨(attributes_split_on_space_tab.1
        ⟨"srv1", ⟨"10.0.0.1", "80"⟩, "maxconn 1024 weight 3"⟩).2.2.2 (by decide),
      (attributes_split_on_space_tab.2.1
        ⟨⟨"0.0.0.0", "443"⟩, "ssl crt cert.pem"⟩).2.2.2 (by decide)⟩⟩

/-- C7: an empty input buffer makes parser construction fail with the
explicit empty-input exception — no parser object, hence no Configuration,
is ever produced from empty input. -/
theorem empty_input_rejected (filepath : String) :
    parser_init filepath "" = .error ("error reading from file " ++ filepath) := by
  simp [parser_init]

/-- C8: a userlist body of `group G1` then `user alice password x1 groups G1`
builds a Userlist holding Group "G1" with empty user_names (no
back-propagation from the user line) and User "alice" with passwd "x1" and
group_names ["G1"] by comma-splitting the groups fragment; an absent
fragment yields the empty sequence, not `[""]`. -/
theorem userlist_group_user_example :
    build_userlist "U" [.groupLine ⟨"G1", ""⟩, .userLine ⟨"alice", "x1", "password", "G1"⟩] =
      { name := "U",
        config_block :=
          { users := [{ name := "alice", passwd := "x1", passwd_type := "password",
                        group_names := ["G1"] }],
            groups := [{ name := "G1", user_names := [] }] } } ∧
    ∀ nm pw pt : String, (build_user ⟨nm, pw, pt, ""⟩).group_names = [] := by
  refine ⟨by decide, fun nm pw pt => ?_⟩
  simp [build_user]

/-- C9: building the configuration is a deterministic function of the input
string — two parser objects with the same filestring (whatever their pegtree
slots hold) yield structurally equal results, and re-invoking the builder on
the state left by a first invocation reproduces the first result. -/
theorem build_configuration_deterministic (p q : ParserObj)
    (h : p.filestring = q.filestring) :
    (build_configuration p).2 = (build_configuration q).2 ∧
    (build_configuration ((build_configuration p).1)).2 = (build_configuration p).2 := by
  constructor
  · simp only [build_configuration, h]
    cases hq : pegparse q.filestring <;> simp [hq]
  · cases hp : pegparse p.filestring with
    | error e => simp [build_configuration, hp]
    | ok tree => simp [build_configuration, hp]

theorem build_configuration_deterministic_witness :
    (ParserObj.mk "global\nmaxconn 1024" none).filestring =
      (ParserObj.mk "global\nmaxconn 1024" (some [])).filestring ∧
    ((build_configuration (ParserObj.mk "global\nmaxconn 1024" none)).2 =
      (build_configuration (ParserObj.mk "global\nmaxconn 1024" (some []))).2 ∧
    (build_configuration ((build_configuration (ParserObj.mk "global\nmaxconn 1024" none)).1)).2 =
      (build_configuration (ParserObj.mk "global\nmaxconn 1024" none)).2) :=
  ⟨rfl, build_configuration_deterministic _ _ rfl⟩

/-- C10: a tree node of a section kind outside the six handled ones is
silently skipped by the assembly walk — the result (including whether an
error arises at all) is exactly that of the same tree without the node,
despite the docstring of `build_configuration` announcing an exception for
unsupported sections. -/
theorem unhandled_section_silently_skipped (pre post : List SectionNode) :
    build_configuration_tree (pre ++ SectionNode.otherSection :: post) =
      build_configuration_tree (pre ++ post) := by
  simpa [build_configuration_tree] using build_configuration_aux_skip pre {} post

end pyhaproxy
